import Mathlib

/-!
Shallow embedding of the FreqShift component (src/cpp/FreqShift.cpp).

The component pulls one BULKIO float block per service call, builds a complex
exponential oscillating at the configured `frequency_shift`, multiplies the
input samples by it, announces the output stream as complex on the first
successful call, and pushes the resulting packet.  C++ `float` values are
modelled as real numbers; the raw `dataBuffer` is a `List ℝ`, and the cast
`(vector<complex<float>>*)&tmp->dataBuffer` is modelled by pairing consecutive
reals.
-/

namespace FreqShift

/-- A complex sample: pair of floating-point components, modelled over ℝ
(`complex<float>` in the source). -/
@[ext]
structure Cplx where
  re : ℝ
  im : ℝ

/-- The stream descriptor fields the component reads or writes:
`SRI.xdelta` (sample spacing) and `SRI.mode` (false = real, true = complex). -/
structure StreamSRI where
  xdelta : ℝ
  mode : Bool
  streamID : String

/-- One input block, modelling `bulkio::InFloatPort::dataTransfer`:
the raw float buffer, the stream descriptor, timestamp `T`, end-of-stream
flag `EOS`, the transfer stream identifier, and the metadata-changed flag. -/
structure Block where
  dataBuffer : List ℝ
  SRI : StreamSRI
  T : ℕ
  EOS : Bool
  streamID : String
  sriChanged : Bool

/-- Mutable component state: `sampleRate` and `firstTime`, as set by the
constructor `FreqShift_i::FreqShift_i` and mutated by `serviceFunction`. -/
structure CompState where
  sampleRate : ℝ
  firstTime : Bool

/-- Constructor state: `sampleRate = 0; firstTime = true;`. -/
def initState : CompState := { sampleRate := 0, firstTime := true }

/-- An emitted data packet: `pushPacket(*output, tmp->T, tmp->EOS, tmp->streamID)`.
The interleaved float output buffer is modelled as the list of complex samples
it represents. -/
structure Packet where
  samples : List Cplx
  T : ℕ
  EOS : Bool
  streamID : String

/-- An observable outbound call of one service step, in emission order. -/
inductive Event where
  | pushSRI (sri : StreamSRI)
  | pushPacket (p : Packet)

/-- Return value of the service function: `NORMAL` or `NOOP`. -/
inductive SvcRet where
  | NORMAL
  | NOOP
deriving DecidableEq

/-- The cast of the raw float buffer to a complex vector: consecutive reals are
paired; a trailing unpaired element is dropped (integer division of the byte
size, as in the C++ reinterpretation). -/
def toComplexPairs : List ℝ → List Cplx
  | a :: b :: rest => ⟨a, b⟩ :: toComplexPairs rest
  | _ => []

/-- The oscillator loop of `serviceFunction` (lines 184-191): element `i` is
`(cos θ, sin θ)` with `θ = 2*M_PI*frequency_shift*i*xdelta`. -/
noncomputable def oscillator (frequency_shift xdelta : ℝ) (n : ℕ) : List Cplx :=
  (List.range n).map fun i : ℕ =>
    ⟨Real.cos (2 * Real.pi * frequency_shift * (i : ℝ) * xdelta),
     Real.sin (2 * Real.pi * frequency_shift * (i : ℝ) * xdelta)⟩

/-- The oscillator vector built during a step: `complex_vector` is resized to
`tmp->dataBuffer.size()` (the raw float count) and filled by the loop. -/
noncomputable def stepOscillator (frequency_shift : ℝ) (b : Block) : List Cplx :=
  oscillator frequency_shift b.SRI.xdelta b.dataBuffer.length

/-- Standard complex product. -/
def cmul (z w : Cplx) : Cplx :=
  ⟨z.re * w.re - z.im * w.im, z.re * w.im + z.im * w.re⟩

/-- Modelled from the spec: `vectormultiply` is declared in `FreqShift.h`, which
is not among the available sources; only its call sites are.  Real overload,
per spec section 4.3: each real sample `x_i` is treated as `(x_i, 0)`, so
`result_i = (x_i * cos θ_i, x_i * sin θ_i)`; output length equals input
length (iteration over the input, taking oscillator element `i`). -/
def vectormultiplyReal (input : List ℝ) (osc : List Cplx) : List Cplx :=
  List.zipWith (fun x c => ⟨x * c.re, x * c.im⟩) input osc

/-- Modelled from the spec: `vectormultiply` is declared in `FreqShift.h`, which
is not among the available sources; only its call sites are.  Complex overload,
per spec section 4.3: elementwise standard complex multiply, output length
equals input length. -/
def vectormultiplyComplex (input osc : List Cplx) : List Cplx :=
  List.zipWith cmul input osc

/-- The mixing step of `serviceFunction` (lines 193-209): if `SRI.mode` the
buffer is cast to complex and multiplied elementwise with `complex_vector`,
otherwise the real buffer is multiplied elementwise with `complex_vector`. -/
noncomputable def mix (frequency_shift : ℝ) (b : Block) : List Cplx :=
  if b.SRI.mode then
    vectormultiplyComplex (toComplexPairs b.dataBuffer) (stepOscillator frequency_shift b)
  else
    vectormultiplyReal b.dataBuffer (stepOscillator frequency_shift b)

/-- The result of one service call: the return code, the successor component
state, and the outbound calls in emission order. -/
structure StepResult where
  ret : SvcRet
  state : CompState
  events : List Event

/-- One call of `FreqShift_i::serviceFunction`, with the current component
state, the value of the `frequency_shift` property at call time, and the packet
returned by `getPacket` (`none` models a null return).

Mirrors the source: on `none`, return `NOOP`; otherwise set
`sampleRate = 1/xdelta`, build the oscillator, mix, push SRI with `mode = 1`
if `firstTime` (clearing `firstTime`), then push the packet with the block's
`T`, `EOS` and `streamID`. -/
noncomputable def serviceFunction (s : CompState) (frequency_shift : ℝ)
    (inp : Option Block) : StepResult :=
  match inp with
  | none => { ret := SvcRet.NOOP, state := s, events := [] }
  | some tmp =>
    let s1 : CompState := { s with sampleRate := 1 / tmp.SRI.xdelta }
    let output : List Cplx := mix frequency_shift tmp
    let s2 : CompState :=
      if s1.firstTime then { s1 with firstTime := false } else s1
    let sriEvents : List Event :=
      if s1.firstTime then [Event.pushSRI { tmp.SRI with mode := true }] else []
    { ret := SvcRet.NORMAL,
      state := s2,
      events := sriEvents ++
        [Event.pushPacket
          { samples := output, T := tmp.T, EOS := tmp.EOS, streamID := tmp.streamID }] }

/-- Repeated invocation of the service function over a list of
(frequency at call time, packet returned by `getPacket`) pairs, collecting the
final state and the concatenated outbound calls. -/
noncomputable def run (s : CompState) :
    List (ℝ × Option Block) → CompState × List Event
  | [] => (s, [])
  | (f, inp) :: rest =>
    let r := serviceFunction s f inp
    let rr := run r.state rest
    (rr.1, r.events ++ rr.2)

/-- The event trace of a fresh component over a list of step inputs. -/
noncomputable def runEvents (inputs : List (ℝ × Option Block)) : List Event :=
  (run initState inputs).2

/-- Whether an event is an SRI announcement. -/
def Event.isSRI : Event → Bool
  | Event.pushSRI _ => true
  | Event.pushPacket _ => false

/-- Whether an event is a data emission. -/
def Event.isPacket : Event → Bool
  | Event.pushSRI _ => false
  | Event.pushPacket _ => true

/-- Number of SRI announcements in a trace. -/
def sriCount (evs : List Event) : ℕ := (evs.filter Event.isSRI).length

/-- The data packets of a trace, in order. -/
def packetsOf : List Event → List Packet
  | [] => []
  | Event.pushPacket p :: rest => p :: packetsOf rest
  | Event.pushSRI _ :: rest => packetsOf rest

/-- Sample counts of the packets of a trace, in order. -/
def packetSampleCounts : List Event → List ℕ
  | [] => []
  | Event.pushPacket p :: rest => p.samples.length :: packetSampleCounts rest
  | Event.pushSRI _ :: rest => packetSampleCounts rest

/-- The (timestamp, end-of-stream, stream identifier) metadata of the packets
of a trace, in order. -/
def packetMeta : List Event → List (ℕ × Bool × String)
  | [] => []
  | Event.pushPacket p :: rest => (p.T, p.EOS, p.streamID) :: packetMeta rest
  | Event.pushSRI _ :: rest => packetMeta rest

/-- Every data emission in the trace is preceded by some SRI announcement. -/
def noPacketBeforeSRI (evs : List Event) : Bool :=
  (evs.takeWhile fun e => !e.isSRI).all fun e => !e.isPacket

/-- Whether the first event of a trace is an SRI announcement. -/
def headIsSRI : List Event → Bool
  | [] => false
  | e :: _ => e.isSRI

/-- Whether a step input carries a block. -/
def hasBlock (p : ℝ × Option Block) : Bool := p.2.isSome

/-- The sample count of a block: the raw float count for a real-tagged block,
half of it (the number of complex pairs) for a complex-tagged block. -/
def blockSampleCount (b : Block) : ℕ :=
  if b.SRI.mode then b.dataBuffer.length / 2 else b.dataBuffer.length

/-- The sample list of the step's emitted packet (empty if none was emitted). -/
noncomputable def outSamples (r : StepResult) : List Cplx :=
  match packetsOf r.events with
  | p :: _ => p.samples
  | [] => []

/-- Sample `i` of the step's emitted packet, if any. -/
noncomputable def outSampleAt (r : StepResult) (i : ℕ) : Option Cplx :=
  match packetsOf r.events with
  | p :: _ => p.samples[i]?
  | [] => none

/-- Spec-side reading of "the input block reinterpreted as complex": imaginary
part 0 for a real-tagged block, the consecutive pairs for a complex-tagged
block. -/
def reinterpretAsComplex (b : Block) : List Cplx :=
  if b.SRI.mode then toComplexPairs b.dataBuffer
  else b.dataBuffer.map fun x => ⟨x, 0⟩

/-! ### Basic lemmas about the step -/

/-- A successful step pushes exactly one packet: the mixed samples with the
block's metadata. -/
theorem packetsOf_step (s : CompState) (f : ℝ) (b : Block) :
    packetsOf (serviceFunction s f (some b)).events =
      [{ samples := mix f b, T := b.T, EOS := b.EOS, streamID := b.streamID }] := by
  unfold serviceFunction
  cases h : s.firstTime <;> simp [h, packetsOf]

theorem outSamples_step (s : CompState) (f : ℝ) (b : Block) :
    outSamples (serviceFunction s f (some b)) = mix f b := by
  unfold outSamples
  rw [packetsOf_step]

theorem outSampleAt_step (s : CompState) (f : ℝ) (b : Block) (i : ℕ) :
    outSampleAt (serviceFunction s f (some b)) i = (mix f b)[i]? := by
  unfold outSampleAt
  rw [packetsOf_step]

theorem toComplexPairs_length : ∀ xs : List ℝ,
    (toComplexPairs xs).length = xs.length / 2
  | [] => rfl
  | [_] => by simp [toComplexPairs]
  | _ :: _ :: rest => by
    simp only [toComplexPairs, List.length_cons, toComplexPairs_length rest]
    omega

theorem toComplexPairs_getElem? : ∀ (xs : List ℝ) (i : ℕ) (a c : ℝ),
    xs[2 * i]? = some a → xs[2 * i + 1]? = some c →
    (toComplexPairs xs)[i]? = some ⟨a, c⟩
  | [], i, a, c => by simp
  | [x], i, a, c => by
    intro _ hc
    rw [List.getElem?_eq_none (by simp only [List.length_singleton]; omega)] at hc
    exact absurd hc (by simp)
  | x :: y :: rest, 0, a, c => by
    intro ha hc
    simp only [Nat.mul_zero, List.getElem?_cons_zero, Option.some.injEq] at ha
    simp only [Nat.mul_zero, Nat.zero_add, List.getElem?_cons_succ,
      List.getElem?_cons_zero, Option.some.injEq] at hc
    simp [toComplexPairs, ha, hc]
  | x :: y :: rest, i + 1, a, c => by
    intro ha hc
    have h2 : 2 * (i + 1) = 2 * i + 1 + 1 := by omega
    rw [h2, List.getElem?_cons_succ, List.getElem?_cons_succ] at ha
    rw [h2, List.getElem?_cons_succ, List.getElem?_cons_succ] at hc
    simpa [toComplexPairs] using toComplexPairs_getElem? rest i a c ha hc

theorem oscillator_length (f xdelta : ℝ) (n : ℕ) :
    (oscillator f xdelta n).length = n := by
  rw [oscillator, List.length_map, List.length_range]

theorem oscillator_getElem? (f xdelta : ℝ) (n i : ℕ) (h : i < n) :
    (oscillator f xdelta n)[i]? =
      some ⟨Real.cos (2 * Real.pi * f * i * xdelta),
            Real.sin (2 * Real.pi * f * i * xdelta)⟩ := by
  rw [oscillator, List.getElem?_map, List.getElem?_range h]
  rfl

theorem mix_real_getElem? (f : ℝ) (b : Block) (i : ℕ) (x : ℝ)
    (hmode : b.SRI.mode = false) (hx : b.dataBuffer[i]? = some x) :
    (mix f b)[i]? =
      some ⟨x * Real.cos (2 * Real.pi * f * (i : ℝ) * b.SRI.xdelta),
            x * Real.sin (2 * Real.pi * f * (i : ℝ) * b.SRI.xdelta)⟩ := by
  have hi : i < b.dataBuffer.length := (List.getElem?_eq_some_iff.1 hx).1
  rw [mix, if_neg (by simp [hmode]), vectormultiplyReal, List.getElem?_zipWith, hx,
    stepOscillator, oscillator_getElem? f b.SRI.xdelta b.dataBuffer.length i hi]

theorem mix_complex_getElem? (f : ℝ) (b : Block) (i : ℕ) (a c : ℝ)
    (hmode : b.SRI.mode = true)
    (ha : b.dataBuffer[2 * i]? = some a) (hc : b.dataBuffer[2 * i + 1]? = some c) :
    (mix f b)[i]? =
      some ⟨a * Real.cos (2 * Real.pi * f * (i : ℝ) * b.SRI.xdelta) -
              c * Real.sin (2 * Real.pi * f * (i : ℝ) * b.SRI.xdelta),
            a * Real.sin (2 * Real.pi * f * (i : ℝ) * b.SRI.xdelta) +
              c * Real.cos (2 * Real.pi * f * (i : ℝ) * b.SRI.xdelta)⟩ := by
  have hi : 2 * i + 1 < b.dataBuffer.length := (List.getElem?_eq_some_iff.1 hc).1
  have hi2 : i < b.dataBuffer.length := by omega
  rw [mix, if_pos hmode, vectormultiplyComplex, List.getElem?_zipWith,
    toComplexPairs_getElem? b.dataBuffer i a c ha hc,
    stepOscillator, oscillator_getElem? f b.SRI.xdelta b.dataBuffer.length i hi2]
  rfl

/-! ### Claim theorems -/

/-- Claim C1: for every input block tagged real-valued with samples
x_0..x_{N-1}, spacing xdelta > 0, and configured shift frequency f at call
time, output sample i equals (x_i * cos θ_i, x_i * sin θ_i) with
θ_i = 2π f i xdelta, for every index i < N. -/
theorem c1_real_block_output (s : CompState) (f : ℝ) (b : Block) (i : ℕ) (x : ℝ)
    (hmode : b.SRI.mode = false) (_hdt : 0 < b.SRI.xdelta)
    (hx : b.dataBuffer[i]? = some x) :
    outSampleAt (serviceFunction s f (some b)) i =
      some ⟨x * Real.cos (2 * Real.pi * f * (i : ℝ) * b.SRI.xdelta),
            x * Real.sin (2 * Real.pi * f * (i : ℝ) * b.SRI.xdelta)⟩ := by
  rw [outSampleAt_step]
  exact mix_real_getElem? f b i x hmode hx

/-- A concrete real-tagged block with a single sample 1.0 and spacing 1.0. -/
def blockR1 : Block :=
  { dataBuffer := [1], SRI := { xdelta := 1, mode := false, streamID := "s" },
    T := 0, EOS := false, streamID := "s", sriChanged := false }

theorem c1_real_block_output_witness :
    blockR1.SRI.mode = false ∧ 0 < blockR1.SRI.xdelta ∧
    blockR1.dataBuffer[0]? = some 1 ∧
    outSampleAt (serviceFunction initState 1 (some blockR1)) 0 =
      some ⟨1 * Real.cos (2 * Real.pi * 1 * ((0 : ℕ) : ℝ) * blockR1.SRI.xdelta),
            1 * Real.sin (2 * Real.pi * 1 * ((0 : ℕ) : ℝ) * blockR1.SRI.xdelta)⟩ :=
  ⟨rfl, by norm_num [blockR1], rfl,
    c1_real_block_output initState 1 blockR1 0 1 rfl (by norm_num [blockR1]) rfl⟩

/-- Claim C2: for every input block tagged complex-valued, output sample i
equals the standard complex product of input sample i = (a_i, b_i) and
oscillator element i = (c_i, s_i):
result_i = (a_i c_i − b_i s_i, a_i s_i + b_i c_i). -/
theorem c2_complex_block_output (s : CompState) (f : ℝ) (b : Block) (i : ℕ)
    (a c : ℝ) (hmode : b.SRI.mode = true)
    (ha : b.dataBuffer[2 * i]? = some a) (hc : b.dataBuffer[2 * i + 1]? = some c) :
    outSampleAt (serviceFunction s f (some b)) i =
      some ⟨a * Real.cos (2 * Real.pi * f * (i : ℝ) * b.SRI.xdelta) -
              c * Real.sin (2 * Real.pi * f * (i : ℝ) * b.SRI.xdelta),
            a * Real.sin (2 * Real.pi * f * (i : ℝ) * b.SRI.xdelta) +
              c * Real.cos (2 * Real.pi * f * (i : ℝ) * b.SRI.xdelta)⟩ := by
  rw [outSampleAt_step]
  exact mix_complex_getElem? f b i a c hmode ha hc

/-- A concrete complex-tagged block with a single complex sample (1.0, 2.0)
and spacing 1.0. -/
def blockC1 : Block :=
  { dataBuffer := [1, 2], SRI := { xdelta := 1, mode := true, streamID := "s" },
    T := 0, EOS := false, streamID := "s", sriChanged := false }

theorem c2_complex_block_output_witness :
    blockC1.SRI.mode = true ∧
    blockC1.dataBuffer[2 * 0]? = some 1 ∧ blockC1.dataBuffer[2 * 0 + 1]? = some 2 ∧
    outSampleAt (serviceFunction initState 1 (some blockC1)) 0 =
      some ⟨1 * Real.cos (2 * Real.pi * 1 * ((0 : ℕ) : ℝ) * blockC1.SRI.xdelta) -
              2 * Real.sin (2 * Real.pi * 1 * ((0 : ℕ) : ℝ) * blockC1.SRI.xdelta),
            1 * Real.sin (2 * Real.pi * 1 * ((0 : ℕ) : ℝ) * blockC1.SRI.xdelta) +
              2 * Real.cos (2 * Real.pi * 1 * ((0 : ℕ) : ℝ) * blockC1.SRI.xdelta)⟩ :=
  ⟨rfl, rfl, rfl,
    c2_complex_block_output initState 1 blockC1 0 1 2 rfl rfl rfl⟩

/-- Claim C3 counterexample: for the complex-tagged block `blockC1`, which
holds one complex sample (raw buffer `[1, 2]`), the oscillator vector built
during the step has 2 elements while the block has 1 sample, so the
Oscillator Sequence does not match the block's number of samples. -/
theorem c3_oscillator_length_counterexample :
    (stepOscillator 1 blockC1).length = 2 ∧ blockSampleCount blockC1 = 1 ∧
    (stepOscillator 1 blockC1).length ≠ blockSampleCount blockC1 := by
  refine ⟨?_, rfl, ?_⟩
  · rw [stepOscillator, oscillator_length]; rfl
  · rw [stepOscillator, oscillator_length]
    intro h
    exact absurd h (by decide)

/-- Claim C3 amended: the oscillator sequence built during a step has as many
elements as the raw data buffer of the block (`dataBuffer.size()`), which is
the block's sample count for a real-tagged block but twice the sample count
(up to the dropped odd element) for a complex-tagged block; element i equals
(cos θᵢ, sin θᵢ) with θᵢ = 2π·f_shift·i·spacing. -/
theorem c3_oscillator_amended (f : ℝ) (b : Block) (i : ℕ)
    (h : i < b.dataBuffer.length) :
    (stepOscillator f b).length = b.dataBuffer.length ∧
    (b.SRI.mode = false → (stepOscillator f b).length = blockSampleCount b) ∧
    (stepOscillator f b)[i]? =
      some ⟨Real.cos (2 * Real.pi * f * (i : ℝ) * b.SRI.xdelta),
            Real.sin (2 * Real.pi * f * (i : ℝ) * b.SRI.xdelta)⟩ := by
  refine ⟨?_, ?_, ?_⟩
  · rw [stepOscillator, oscillator_length]
  · intro hm
    rw [stepOscillator, oscillator_length, blockSampleCount, if_neg (by simp [hm])]
  · rw [stepOscillator, oscillator_getElem? f b.SRI.xdelta b.dataBuffer.length i h]

theorem c3_oscillator_amended_witness :
    0 < blockR1.dataBuffer.length ∧
    (stepOscillator 1 blockR1).length = blockR1.dataBuffer.length ∧
    (blockR1.SRI.mode = false →
      (stepOscillator 1 blockR1).length = blockSampleCount blockR1) ∧
    (stepOscillator 1 blockR1)[0]? =
      some ⟨Real.cos (2 * Real.pi * 1 * ((0 : ℕ) : ℝ) * blockR1.SRI.xdelta),
            Real.sin (2 * Real.pi * 1 * ((0 : ℕ) : ℝ) * blockR1.SRI.xdelta)⟩ :=
  ⟨by decide, c3_oscillator_amended 1 blockR1 0 (by decide)⟩

/-- Claim C5: for every input block with sample count N and spacing
xdelta > 0 (real-tagged or complex-tagged), the emitted output block has
exactly N samples. -/
theorem c5_output_length (s : CompState) (f : ℝ) (b : Block)
    (_hdt : 0 < b.SRI.xdelta) :
    packetSampleCounts (serviceFunction s f (some b)).events =
      [blockSampleCount b] := by
  have hlen : (mix f b).length = blockSampleCount b := by
    rw [mix, blockSampleCount]
    cases hm : b.SRI.mode
    · rw [if_neg (by simp), if_neg (by simp), vectormultiplyReal,
        List.length_zipWith, stepOscillator, oscillator_length, min_self]
    · rw [if_pos rfl, if_pos rfl, vectormultiplyComplex, List.length_zipWith,
        toComplexPairs_length, stepOscillator, oscillator_length]
      exact min_eq_left (Nat.div_le_self _ _)
  unfold serviceFunction
  cases h : s.firstTime <;> simp [h, packetSampleCounts, hlen]

theorem c5_output_length_witness :
    0 < blockR1.SRI.xdelta ∧
    packetSampleCounts (serviceFunction initState 0 (some blockR1)).events =
      [blockSampleCount blockR1] ∧
    blockSampleCount blockR1 = 1 :=
  ⟨by norm_num [blockR1],
    c5_output_length initState 0 blockR1 (by norm_num [blockR1]), rfl⟩

theorem oscillator_zero (xdelta : ℝ) (n : ℕ) :
    oscillator 0 xdelta n = List.replicate n ⟨1, 0⟩ := by
  rw [oscillator]
  refine List.eq_replicate_iff.2 ⟨by rw [List.length_map, List.length_range], ?_⟩
  intro z hz
  rcases List.mem_map.1 hz with ⟨i, _, rfl⟩
  have h0 : 2 * Real.pi * 0 * (i : ℝ) * xdelta = 0 := by ring
  rw [h0, Real.cos_zero, Real.sin_zero]

theorem vectormultiplyReal_one : ∀ (xs : List ℝ) (n : ℕ), xs.length ≤ n →
    vectormultiplyReal xs (List.replicate n ⟨1, 0⟩) = xs.map fun x => ⟨x, 0⟩
  | [], _, _ => by cases ‹ℕ› <;> rfl
  | x :: rest, 0, h => by simp at h
  | x :: rest, n + 1, h => by
    have ih := vectormultiplyReal_one rest n (by simpa using h)
    simp only [vectormultiplyReal, List.replicate_succ, List.zipWith_cons_cons,
      List.map_cons] at ih ⊢
    rw [ih]
    norm_num

theorem vectormultiplyComplex_one : ∀ (zs : List Cplx) (n : ℕ), zs.length ≤ n →
    vectormultiplyComplex zs (List.replicate n ⟨1, 0⟩) = zs
  | [], _, _ => by cases ‹ℕ› <;> rfl
  | z :: rest, 0, h => by simp at h
  | z :: rest, n + 1, h => by
    have ih := vectormultiplyComplex_one rest n (by simpa using h)
    simp only [vectormultiplyComplex, List.replicate_succ, List.zipWith_cons_cons] at ih ⊢
    rw [ih]
    have hz : cmul z ⟨1, 0⟩ = z := by
      apply Cplx.ext <;> simp [cmul]
    rw [hz]

theorem mix_zero (b : Block) : mix 0 b = reinterpretAsComplex b := by
  rw [mix, reinterpretAsComplex, stepOscillator, oscillator_zero]
  cases hm : b.SRI.mode
  · rw [if_neg (by simp), if_neg (by simp)]
    exact vectormultiplyReal_one b.dataBuffer b.dataBuffer.length le_rfl
  · rw [if_pos rfl, if_pos rfl]
    refine vectormultiplyComplex_one (toComplexPairs b.dataBuffer) b.dataBuffer.length ?_
    rw [toComplexPairs_length]
    exact Nat.div_le_self _ _

/-- Claim C6: when the configured shift frequency f equals 0, the emitted
output block equals the input block reinterpreted as complex (imaginary part
0 for originally-real input) at every sample. -/
theorem c6_zero_frequency_identity (s : CompState) (f : ℝ) (b : Block)
    (hf : f = 0) :
    outSamples (serviceFunction s f (some b)) = reinterpretAsComplex b := by
  subst hf
  rw [outSamples_step, mix_zero]

/-- The real input block [1.0, 2.0, 3.0] with spacing 1.0 of the round-trip
scenario. -/
def block123 : Block :=
  { dataBuffer := [1, 2, 3], SRI := { xdelta := 1, mode := false, streamID := "s" },
    T := 0, EOS := false, streamID := "s", sriChanged := false }

theorem c6_zero_frequency_identity_witness :
    (0 : ℝ) = 0 ∧
    outSamples (serviceFunction initState 0 (some block123)) =
      [⟨1, 0⟩, ⟨2, 0⟩, ⟨3, 0⟩] :=
  ⟨rfl, by rw [c6_zero_frequency_identity initState 0 block123 rfl]; rfl⟩

/-- Claim C7: a step in which no input block is available returns NOOP,
leaves the component state (sample rate and first-time flag) unchanged, and
emits no events at all. -/
theorem c7_no_data_noop (s : CompState) (f : ℝ) :
    serviceFunction s f none =
      { ret := SvcRet.NOOP, state := s, events := [] } := rfl

/-- Claim C9: for every successfully processed input block, the emitted
output packet carries unchanged the timestamp, the end-of-stream flag, and
the stream identifier of the source block, and it is the only packet of the
step. -/
theorem c9_metadata_preserved (s : CompState) (f : ℝ) (b : Block) :
    packetMeta (serviceFunction s f (some b)).events =
      [(b.T, b.EOS, b.streamID)] := by
  unfold serviceFunction
  cases h : s.firstTime <;> simp [h, packetMeta]

/-- Claim C10: after construction the observable sample rate is 0; after
every successful step it equals 1 divided by the spacing of the processed
block; a no-data step leaves it unchanged. -/
theorem c10_sample_rate (s : CompState) (f : ℝ) (b : Block) :
    initState.sampleRate = 0 ∧
    (serviceFunction s f (some b)).state.sampleRate = 1 / b.SRI.xdelta ∧
    (serviceFunction s f none).state.sampleRate = s.sampleRate := by
  refine ⟨rfl, ?_, rfl⟩
  unfold serviceFunction
  cases h : s.firstTime <;> simp [h]

/-! ### Announcement bookkeeping across steps (claims C4 and C8) -/

theorem sriCount_append (a b : List Event) :
    sriCount (a ++ b) = sriCount a + sriCount b := by
  simp [sriCount, List.filter_append]

/-- After the first-time flag has been cleared, no further step ever pushes
an SRI announcement. -/
theorem run_sriCount_cleared : ∀ (inputs : List (ℝ × Option Block))
    (s : CompState), s.firstTime = false → sriCount (run s inputs).2 = 0
  | [], _, _ => rfl
  | (f, none) :: rest, s, h => by
    rw [run]
    simpa [serviceFunction, sriCount] using run_sriCount_cleared rest s h
  | (f, some b) :: rest, s, h => by
    rw [run]
    simp only [serviceFunction, h, Bool.false_eq_true, if_false, List.nil_append]
    rw [sriCount_append,
      run_sriCount_cleared rest { sampleRate := 1 / b.SRI.xdelta, firstTime := false } rfl]
    rfl

/-- A fresh component announces exactly once as soon as some step carries a
block, and the announcement is the very first outbound call of the trace. -/
theorem run_sriCount_first : ∀ (inputs : List (ℝ × Option Block))
    (s : CompState), s.firstTime = true → inputs.any hasBlock = true →
    sriCount (run s inputs).2 = 1 ∧ headIsSRI (run s inputs).2 = true
  | [], _, _, hany => by simp at hany
  | (f, none) :: rest, s, h, hany => by
    rw [run]
    have hrest : rest.any hasBlock = true := by
      simpa [hasBlock] using hany
    simpa [serviceFunction] using run_sriCount_first rest s h hrest
  | (f, some b) :: rest, s, h, _ => by
    rw [run]
    simp only [serviceFunction, h, if_true, List.cons_append, List.nil_append]
    constructor
    · show sriCount (Event.pushSRI _ :: Event.pushPacket _ :: (run _ rest).2) = 1
      have h0 := run_sriCount_cleared rest
        { sampleRate := 1 / b.SRI.xdelta, firstTime := false } rfl
      simp [sriCount, List.filter, Event.isSRI] at h0 ⊢
      exact h0
    · rfl

/-- A block whose metadata-changed flag is set. -/
def blockR1sc : Block :=
  { dataBuffer := [1], SRI := { xdelta := 1, mode := false, streamID := "s" },
    T := 0, EOS := false, streamID := "s", sriChanged := true }

/-- Claim C4 counterexample: a two-step trace whose second block has the
metadata-changed flag set still produces exactly one SRI announcement, in the
first step; the second step emits its packet with no re-announcement. -/
theorem c4_announce_counterexample :
    blockR1sc.sriChanged = true ∧
    (runEvents [(0, some blockR1), (0, some blockR1sc)]).map Event.isSRI =
      [true, false, false] ∧
    sriCount (runEvents [(0, some blockR1), (0, some blockR1sc)]) = 1 :=
  ⟨rfl, rfl, rfl⟩

/-- Claim C4 amended: across any sequence of steps of a fresh component in
which at least one input block arrives, the stream-complex announcement is
emitted exactly once, as the very first outbound call (hence on the first
successful step, before that step's packet); a later block's metadata-changed
flag does not cause any re-emission. -/
theorem c4_announce_once (inputs : List (ℝ × Option Block))
    (h : inputs.any hasBlock = true) :
    sriCount (runEvents inputs) = 1 ∧ headIsSRI (runEvents inputs) = true :=
  run_sriCount_first inputs initState rfl h

theorem c4_announce_once_witness :
    ([((0 : ℝ), some blockR1)].any hasBlock = true) ∧
    sriCount (runEvents [((0 : ℝ), some blockR1)]) = 1 ∧
    headIsSRI (runEvents [((0 : ℝ), some blockR1)]) = true :=
  ⟨rfl, c4_announce_once [((0 : ℝ), some blockR1)] rfl⟩

/-- In any trace of a fresh component, no data packet precedes the first SRI
announcement. -/
theorem run_noPacketBeforeSRI : ∀ (inputs : List (ℝ × Option Block))
    (s : CompState), s.firstTime = true →
    noPacketBeforeSRI (run s inputs).2 = true
  | [], _, _ => rfl
  | (f, none) :: rest, s, h => by
    rw [run]
    simpa [serviceFunction] using run_noPacketBeforeSRI rest s h
  | (f, some b) :: rest, s, h => by
    rw [run]
    simp only [serviceFunction, h, if_true, List.cons_append, List.nil_append]
    show noPacketBeforeSRI (Event.pushSRI _ :: _) = true
    rw [noPacketBeforeSRI]
    rfl

/-- Claim C8: in every execution, every data emission on the stream comes
after an SRI announcement; in particular the complex-mode announcement is
made before the first output-block emission. -/
theorem c8_announce_before_emit (inputs : List (ℝ × Option Block)) :
    noPacketBeforeSRI (runEvents inputs) = true :=
  run_noPacketBeforeSRI inputs initState rfl

end FreqShift
